import Mathlib

/-!
Verification of `src/app.py` (a Flask HTTP aggregation endpoint).

Shallow embedding conventions:
* Python strings are `List Char` (ASCII fragment; `str.isdigit` and `str.split`
  are modelled on the ASCII whitespace/digit sets they use for the data that
  flows through this program).
* Parsed JSON values are the inductive `Json` below; Python dicts are
  insertion-ordered association lists with unique keys.
* The network is an oracle `net : List Char → CallOutcome` mapping the request
  URL to what `requests.get` did.
* Python code that can raise an uncaught exception inside the handler is
  embedded with `Except Unit`; `Except.error ()` corresponds to the exception
  escaping `get_details` (Flask then answers with a framework 500 page).
* A Python `set` of strings is modelled as an insertion-ordered duplicate-free
  list (`setAdd`), as iteration order of a `set` is not semantically
  meaningful.
-/

def strL (s : String) : List Char := s.data

/-- The whitespace set of Python `str.split()` / `str.isspace` (ASCII part). -/
def isPySpace (c : Char) : Bool :=
  c = ' ' || c = '\t' || c = '\n' || c = '\r' || c = Char.ofNat 11 || c = Char.ofNat 12

/-- Python `str.isdigit()` on ASCII data: nonempty and all decimal digits. -/
def pyIsdigit (s : List Char) : Bool :=
  !s.isEmpty && s.all (fun c => c.isDigit)

/-- Accumulator-based splitter: `pySplitAux s acc` processes `s` while `acc`
holds the (possibly empty) word read so far.  `pySplit` is Python `s.split()`:
split on runs of whitespace, discarding empty pieces. -/
def pySplitAux : List Char → List Char → List (List Char)
  | [], acc => if acc = [] then [] else [acc]
  | c :: cs, acc =>
    if isPySpace c then
      if acc = [] then pySplitAux cs [] else acc :: pySplitAux cs []
    else
      pySplitAux cs (acc ++ [c])

def pySplit (s : List Char) : List (List Char) := pySplitAux s []

/-- Python `sep.join(pieces)` for a list separator. -/
def joinSep (sep : List Char) : List (List Char) → List Char
  | [] => []
  | [w] => w
  | w :: ws => w ++ sep ++ joinSep sep ws

/-- Python `s.split(c)` for a single-character separator (keeps empty pieces). -/
def splitOnChar (c : Char) : List Char → List (List Char)
  | [] => [[]]
  | d :: ds =>
    if d = c then [] :: splitOnChar c ds
    else
      match splitOnChar c ds with
      | [] => [[d]]
      | r :: rs => (d :: r) :: rs

/-- Parsed JSON values as Python's `json` module produces them (JSON numbers
are modelled as integers; no float appears in any claim-relevant path). -/
inductive Json where
  | null : Json
  | bool : Bool → Json
  | int : Int → Json
  | str : List Char → Json
  | arr : List Json → Json
  | obj : List (List Char × Json) → Json

/-- A Python dict (insertion-ordered association list). -/
def PyDict := List (List Char × Json)

/-- Python `d[k]` / `k in d` combined: first (unique) binding of `k`. -/
def dictGet : List (List Char × Json) → List Char → Option Json
  | [], _ => none
  | (k, v) :: rest, key => if k = key then some v else dictGet rest key

/-- Python `d[k] = v` on a dict: update in place if present, else append. -/
def dictSet : List (List Char × Json) → List Char → Json → List (List Char × Json)
  | [], k, v => [(k, v)]
  | (k', v') :: rest, k, v =>
    if k' = k then (k', v) :: rest else (k', v') :: dictSet rest k v

/-- Python `{**a, **b}`: entries of `a`, then entries of `b` (overriding). -/
def mergeObjs (a b : List (List Char × Json)) : List (List Char × Json) :=
  b.foldl (fun acc kv => dictSet acc kv.1 kv.2) a

/-- Python `s.add(x)` on a set modelled as an insertion-ordered duplicate-free list. -/
def setAdd (s : List (List Char)) (x : List Char) : List (List Char) :=
  if x ∈ s then s else s ++ [x]

/-- Decimal representation of a Python `int` (`str(n)`). -/
def intRepr (n : Int) : List Char :=
  if n < 0 then '-' :: Nat.toDigits 10 n.natAbs else Nat.toDigits 10 n.toNat

mutual

/-- Python `repr` of a parsed-JSON value (string escapes inside `repr` of a
`str` are not modelled; only the surrounding quote characters are, which is
all the development relies on). -/
def pyRepr : Json → List Char
  | .null => strL "None"
  | .bool true => strL "True"
  | .bool false => strL "False"
  | .int n => intRepr n
  | .str s => Char.ofNat 39 :: (s ++ [Char.ofNat 39])
  | .arr xs => '[' :: (pyReprElems xs ++ [']'])
  | .obj kvs => Char.ofNat 123 :: (pyReprFields kvs ++ [Char.ofNat 125])

def pyReprElems : List Json → List Char
  | [] => []
  | [x] => pyRepr x
  | x :: xs => pyRepr x ++ (',' :: ' ' :: pyReprElems xs)

def pyReprFields : List (List Char × Json) → List Char
  | [] => []
  | [(k, v)] => pyRepr (.str k) ++ (':' :: ' ' :: pyRepr v)
  | (k, v) :: kvs => pyRepr (.str k) ++ (':' :: ' ' :: pyRepr v) ++ (',' :: ' ' :: pyReprFields kvs)

end

/-- Python `str(v)` for a parsed-JSON value: identity on strings, `repr`
otherwise. -/
def pyStr : Json → List Char
  | .str s => s
  | v => pyRepr v

/-- Python `str(entry[idKey])` guarded by `isinstance(entry[idKey], (int, str))`
(`bool` is a subclass of `int` in Python, so it passes the guard). -/
def strCoerce : Json → Option (List Char)
  | .int n => some (intRepr n)
  | .str s => some s
  | .bool true => some (strL "True")
  | .bool false => some (strL "False")
  | _ => none

/-- The 12-digit identifier test of `app.py` line 107:
`len(potential_aadhar) == 12 and potential_aadhar.isdigit()`. -/
def isAadhaar (s : List Char) : Bool :=
  decide (s.length = 12) && pyIsdigit s

/-! ## The Text Formatter: `wrap_text` (app.py lines 12-35) -/

/-- Local state of the greedy wrapping loop: accumulated finished lines, the
words of the line under construction, and the running length estimate. -/
structure WrapState where
  lines : List (List Char)
  current_line : List (List Char)
  current_length : Nat

/-- One iteration of the `for word in words` loop of `wrap_text`. -/
def wrapStep (max_length : Nat) (st : WrapState) (word : List Char) : WrapState :=
  if st.current_length + word.length + 1 ≤ max_length then
    ⟨st.lines, st.current_line ++ [word], st.current_length + word.length + 1⟩
  else
    ⟨(if st.current_line = [] then st.lines else st.lines ++ [joinSep [' '] st.current_line]),
      [word], word.length⟩

def wrapFold (max_length : Nat) : WrapState → List (List Char) → WrapState
  | st, [] => st
  | st, w :: ws => wrapFold max_length (wrapStep max_length st w) ws

/-- The trailing `if current_line: lines.append(' '.join(current_line))`. -/
def finishLines (st : WrapState) : List (List Char) :=
  if st.current_line = [] then st.lines else st.lines ++ [joinSep [' '] st.current_line]

def wrapLines (max_length : Nat) (text : List Char) : List (List Char) :=
  finishLines (wrapFold max_length ⟨[], [], 0⟩ (pySplit text))

/-- Function `wrap_text(text, max_length)`: pass short or empty text through unchanged,
else greedily pack the whitespace-split words and join lines with a newline. -/
def wrap_text (text : List Char) (max_length : Nat) : List Char :=
  if text = [] ∨ text.length ≤ max_length then text
  else joinSep ['\n'] (wrapLines max_length text)

/-! ## `format_entry` (lines 37-45) -/

/-- The per-field body of `format_entry`: wrap string values longer than 50
characters, pass everything else through. -/
def formatField (v : Json) : Json :=
  match v with
  | .str s => if 50 < s.length then .str (wrap_text s 50) else .str s
  | _ => v

def format_fields (fields : List (List Char × Json)) : List (List Char × Json) :=
  fields.map (fun kv => (kv.1, formatField kv.2))

/-- Function `format_entry(entry)`: iterates `entry.items()`.  On a non-dict argument
Python raises `AttributeError` (no `.items`), which no caller catches; that is
the `Except.error ()` case. -/
def format_entry : Json → Except Unit Json
  | .obj fields => .ok (.obj (format_fields fields))
  | _ => .error ()

/-- A Python list comprehension `[f(x) for x in xs]` over a fallible `f`:
the first raised exception aborts the whole comprehension. -/
def listMapExc (f : α → Except Unit β) : List α → Except Unit (List β)
  | [] => .ok []
  | a :: as =>
    match f a with
    | .error u => .error u
    | .ok b =>
      match listMapExc f as with
      | .error u => .error u
      | .ok bs => .ok (b :: bs)

/-! ## The Upstream Client: `safe_api_call` (lines 47-68) -/

/-- What `requests.get(url, timeout=10)` followed by `raise_for_status()` and
`.json()` did, classified by which `except` clause of `safe_api_call` (if any)
catches the raised exception:

* `success body`: HTTP success and a well-formed JSON body;
* `timeout`: `requests.exceptions.Timeout`;
* `connectionFailed`: `requests.exceptions.ConnectionError`;
* `httpStatus code`: `requests.exceptions.HTTPError` with
  `e.response.status_code = code` (from `raise_for_status`);
* `invalidJsonBody`: HTTP success but `response.json()` raised
  `requests.exceptions.JSONDecodeError`; since requests 2.27 this exception
  subclasses `requests.exceptions.RequestException`, so it is caught by the
  `RequestException` clause (not by the bare `except Exception` clause);
* `otherRequestError`: any other `requests.exceptions.RequestException`;
* `otherError`: any other exception, caught by the bare `except Exception`. -/
inductive CallOutcome where
  | success : Json → CallOutcome
  | timeout : CallOutcome
  | connectionFailed : CallOutcome
  | httpStatus : Nat → CallOutcome
  | invalidJsonBody : CallOutcome
  | otherRequestError : CallOutcome
  | otherError : CallOutcome

/-- The `{"error": message}` dicts that `safe_api_call` returns. -/
def errObjMsg (msg : List Char) : List (List Char × Json) :=
  [(strL "error", Json.str msg)]

def msgTimeout : List Char := strL "Request timeout - please try again"
def msgConnection : List Char := strL "Connection failed - service unavailable"
def msgNotFound : List Char := strL "Data not found"
def msgInvalidInput : List Char := strL "Invalid input provided"
def msgUnexpected : List Char := strL "An unexpected error occurred"

/-- Function `safe_api_call(url, error_message)`: returns `(data, None)` on success and
`(None, {"error": ...})` on failure, embedded as `Except`.  The dispatch
mirrors the `except` clauses in source order. -/
def safe_api_call (net : List Char → CallOutcome) (url : List Char)
    (error_message : List Char) : Except (List (List Char × Json)) Json :=
  match net url with
  | .success body => .ok body
  | .timeout => .error (errObjMsg msgTimeout)
  | .connectionFailed => .error (errObjMsg msgConnection)
  | .httpStatus code =>
    if code = 404 then .error (errObjMsg msgNotFound)
    else if code = 422 then .error (errObjMsg msgInvalidInput)
    else .error (errObjMsg error_message)
  | .invalidJsonBody => .error (errObjMsg error_message)
  | .otherRequestError => .error (errObjMsg error_message)
  | .otherError => .error (errObjMsg msgUnexpected)

/-! ## The Result Aggregator: `get_details` (lines 70-172) -/

def MOBILE_INFO_API_BASE : List Char :=
  strL "https://random-remove-batch-tea.trycloudflare.com/search?mobile="
def AADHAR_INFO_API_BASE : List Char :=
  strL "https://random-remove-batch-tea.trycloudflare.com/search?aadhar="
def AADHAR_FAMILY_API_BASE : List Char :=
  strL "https://family-tau-three.vercel.app/fetch?key=taitaninfo&aadhaar="

def msgMobileFail : List Char := strL "Failed to fetch mobile information"
def msgAadhaarFail : List Char := strL "Failed to fetch Aadhaar information"
def msgFamilyFail : List Char := strL "Failed to fetch family information"
def msgRequired : List Char := strL "Mobile number is required"
def msgInvalidFormat : List Char := strL "Invalid mobile number format"

def kMobileInfo : List Char := strL "MOBILE_INFO"
def kAadhaarInfo : List Char := strL "AADHAAR_INFO"
def kFamilyInfo : List Char := strL "FAMILY_INFO"
def kAadhaarNumber : List Char := strL "aadhaar_number"

/-- The object `{"warning": "No data found"}` (line 110). -/
def warningObj : Json := .obj [(strL "warning", .str (strL "No data found"))]

/-- The object `{"status": "No valid Aadhaar numbers found"}` (line 138). -/
def statusNoAadhaar : Json :=
  .obj [(strL "status", .str (strL "No valid Aadhaar numbers found"))]

/-- The object `{"status": "No family info available"}` (line 170). -/
def statusNoFamily : Json :=
  .obj [(strL "status", .str (strL "No family info available"))]

/-- Lines 91-96: the `data_list` variable after the two shape checks (`None`
when neither branch assigns it). -/
def dataListOf : Json → Option Json
  | .obj fields => dictGet fields (strL "data")
  | .arr xs => some (.arr xs)
  | _ => none

/-- One step of the Aadhaar extraction loop (lines 104-108).  Only mapping
entries ever reach this loop in the handler: a non-mapping entry makes
`format_entry` raise on line 100 first. -/
def extractStep (found : List (List Char)) (entry : Json) : List (List Char) :=
  match entry with
  | .obj fields =>
    match dictGet fields (strL "id") with
    | some v =>
      match strCoerce v with
      | some s => if isAadhaar s then setAdd found s else found
      | none => found
    | none => found
  | _ => found

def extractLoop : List Json → List (List Char) → List (List Char)
  | [], found => found
  | e :: rest, found => extractLoop rest (extractStep found e)

/-- Lines 98-110: the truthiness test `if data_list and isinstance(data_list,
list)` (an empty list is falsy), the formatting of each entry, and the warning
marker.  Returns the `MOBILE_INFO` section and the raw `data_list` used by the
extraction loop. -/
def primaryBranch (mobile_data : Json) : Except Unit (Json × List Json) :=
  match dataListOf mobile_data with
  | some (Json.arr (e :: es)) =>
    match listMapExc format_entry (e :: es) with
    | .error u => .error u
    | .ok fe => .ok (.arr fe, e :: es)
  | _ => .ok (warningObj, [])

/-- Lines 84-110 as one unit: primary call, error embedding, shape dispatch. -/
def mobilePart (net : List Char → CallOutcome) (m : List Char) :
    Except Unit (Json × List Json) :=
  match safe_api_call net (MOBILE_INFO_API_BASE ++ m) msgMobileFail with
  | .error e => .ok (Json.obj e, [])
  | .ok mobile_data => primaryBranch mobile_data

/-- The identifier set discovered by the primary lookup (empty when the
primary call failed or produced no usable record sequence). -/
def foundIds (net : List Char → CallOutcome) (m : List Char) : List (List Char) :=
  match mobilePart net m with
  | .error _ => []
  | .ok (_, entries) => extractLoop entries []

/-- Lines 125-131: format the secondary response by shape. -/
def detailFormat : Json → Except Unit Json
  | .arr entries =>
    match listMapExc format_entry entries with
    | .error u => .error u
    | .ok fe => .ok (.arr fe)
  | .obj fields => format_entry (.obj fields)
  | d => .ok d

/-- One iteration of the secondary (`AADHAAR_INFO`) loop (lines 115-136). -/
def aadhaarEntry (net : List Char → CallOutcome) (id : List Char) : Except Unit Json :=
  match safe_api_call net (AADHAR_INFO_API_BASE ++ id) msgAadhaarFail with
  | .error e => .ok (.obj (mergeObjs [(kAadhaarNumber, .str id)] e))
  | .ok aadhar_data =>
    match detailFormat aadhar_data with
    | .error u => .error u
    | .ok fd => .ok (.obj [(kAadhaarNumber, .str id), (strL "details", fd)])

/-- Lines 112-138: the `AADHAAR_INFO` section. -/
def aadhaarSection (net : List Char → CallOutcome) (found : List (List Char)) :
    Except Unit Json :=
  if found = [] then .ok statusNoAadhaar
  else
    match listMapExc (aadhaarEntry net) found with
    | .error u => .error u
    | .ok entries => .ok (.arr entries)

/-- Lines 153-163: rebuild a mapping-shaped family response field by field.
Every `format_entry` use here is guarded by an `isinstance(..., dict)` check,
so this rebuild never raises. -/
def familyRebuild : Json → Json
  | .obj fields =>
    .obj (fields.map (fun kv =>
      (kv.1,
        match kv.2 with
        | .arr items =>
          .arr (items.map (fun item =>
            match item with
            | .obj f => .obj (format_fields f)
            | _ => item))
        | .obj f => .obj (format_fields f)
        | _ => kv.2)))
  | family_data => family_data

/-- One iteration of the tertiary (`FAMILY_INFO`) loop (lines 143-168). -/
def familyEntry (net : List Char → CallOutcome) (id : List Char) : Json :=
  match safe_api_call net (AADHAR_FAMILY_API_BASE ++ id) msgFamilyFail with
  | .error e => .obj (mergeObjs [(kAadhaarNumber, .str id)] e)
  | .ok family_data =>
    .obj [(kAadhaarNumber, .str id), (strL "family_details", familyRebuild family_data)]

/-- Lines 140-170: the `FAMILY_INFO` section (never raises). -/
def familySection (net : List Char → CallOutcome) (found : List (List Char)) : Json :=
  if found = [] then statusNoFamily
  else .arr (found.map (familyEntry net))

/-- An HTTP response of the handler: status code and JSON body. -/
structure HttpResponse where
  status : Nat
  body : Json

/-- The `/get_details` handler (lines 70-172).  `number` is the raw query
parameter (`none` when absent).  `Except.error ()` is an uncaught exception
escaping the handler (Flask then produces a framework 500 response instead of
the handler's JSON). -/
def get_details (net : List Char → CallOutcome) (number : Option (List Char)) :
    Except Unit HttpResponse :=
  match number with
  | none => .ok ⟨400, .obj (errObjMsg msgRequired)⟩
  | some m =>
    if m = [] then .ok ⟨400, .obj (errObjMsg msgRequired)⟩
    else if pyIsdigit m = false ∨ m.length < 10 then
      .ok ⟨400, .obj (errObjMsg msgInvalidFormat)⟩
    else
      match mobilePart net m with
      | .error u => .error u
      | .ok (mobileSec, entries) =>
        match aadhaarSection net (extractLoop entries []) with
        | .error u => .error u
        | .ok aSec =>
          .ok ⟨200, .obj [(kMobileInfo, mobileSec), (kAadhaarInfo, aSec),
            (kFamilyInfo, familySection net (extractLoop entries []))]⟩

/-! ## Lemmas about `pySplit` -/

theorem pySplitAux_append_space (c : Char) (hc : isPySpace c = true) :
    ∀ (a acc : List Char), pySplitAux (a ++ [c]) acc = pySplitAux a acc := by
  intro a
  induction a with
  | nil =>
    intro acc
    by_cases hacc : acc = [] <;> simp [pySplitAux, hc, hacc]
  | cons d a ih =>
    intro acc
    by_cases hd : isPySpace d <;> simp [pySplitAux, hd, ih]

theorem pySplitAux_space_append (c : Char) (hc : isPySpace c = true) (b : List Char) :
    ∀ (a acc : List Char),
      pySplitAux (a ++ c :: b) acc = pySplitAux (a ++ [c]) acc ++ pySplitAux b [] := by
  intro a
  induction a with
  | nil =>
    intro acc
    by_cases hacc : acc = [] <;> simp [pySplitAux, hc, hacc]
  | cons d a ih =>
    intro acc
    by_cases hd : isPySpace d
    · by_cases hacc : acc = [] <;> simp [pySplitAux, hd, hacc, ih]
    · simp [pySplitAux, hd, ih]

theorem pySplit_append_space (c : Char) (hc : isPySpace c = true) (a b : List Char) :
    pySplit (a ++ c :: b) = pySplit a ++ pySplit b := by
  unfold pySplit
  rw [pySplitAux_space_append c hc b a [], pySplitAux_append_space c hc a []]

theorem pySplitAux_word :
    ∀ (w acc : List Char), (∀ x ∈ w, isPySpace x = false) →
      pySplitAux w acc = if acc ++ w = [] then [] else [acc ++ w] := by
  intro w
  induction w with
  | nil => intro acc _; simp [pySplitAux]
  | cons d w ih =>
    intro acc hw
    have hd : isPySpace d = false := hw d (by simp)
    have hw' : ∀ x ∈ w, isPySpace x = false := fun x hx => hw x (by simp [hx])
    rw [show pySplitAux (d :: w) acc = pySplitAux w (acc ++ [d]) from by
      simp [pySplitAux, hd]]
    rw [ih (acc ++ [d]) hw']
    simp [List.append_assoc]

theorem pySplit_word (w : List Char) (hne : w ≠ []) (hw : ∀ x ∈ w, isPySpace x = false) :
    pySplit w = [w] := by
  unfold pySplit
  rw [pySplitAux_word w [] hw]
  simp [hne]

theorem pySplitAux_good :
    ∀ (s acc : List Char), (∀ c ∈ acc, isPySpace c = false) →
      ∀ w ∈ pySplitAux s acc, w ≠ [] ∧ ∀ c ∈ w, isPySpace c = false := by
  intro s
  induction s with
  | nil =>
    intro acc hacc w hw
    by_cases hne : acc = []
    · simp [pySplitAux, hne] at hw
    · simp [pySplitAux, hne] at hw
      exact hw ▸ ⟨hne, hacc⟩
  | cons c cs ih =>
    intro acc hacc w hw
    by_cases hc : isPySpace c
    · by_cases hne : acc = []
      · simp only [pySplitAux, hc, if_true, hne, if_pos rfl] at hw
        exact ih [] (by simp) w hw
      · simp only [pySplitAux, hc, if_true, if_neg hne, List.mem_cons] at hw
        rcases hw with rfl | hw
        · exact ⟨hne, hacc⟩
        · exact ih [] (by simp) w hw
    · simp only [pySplitAux, hc, Bool.false_eq_true, if_false] at hw
      refine ih (acc ++ [c]) ?_ w hw
      intro x hx
      rcases List.mem_append.mp hx with h | h
      · exact hacc x h
      · simp at h
        simpa [h] using hc

theorem pySplit_good (s : List Char) :
    ∀ w ∈ pySplit s, w ≠ [] ∧ ∀ c ∈ w, isPySpace c = false :=
  pySplitAux_good s [] (by simp)

/-! ## Lemmas about `joinSep` -/

theorem joinSep_cons₂ (sep w x : List Char) (xs : List (List Char)) :
    joinSep sep (w :: x :: xs) = w ++ sep ++ joinSep sep (x :: xs) := rfl

theorem joinSep_append_single (sep : List Char) :
    ∀ (ws : List (List Char)) (w : List Char),
      joinSep sep (ws ++ [w]) = if ws = [] then w else joinSep sep ws ++ sep ++ w := by
  intro ws
  induction ws with
  | nil => intro w; simp [joinSep]
  | cons x t ih =>
    intro w
    cases t with
    | nil => simp [joinSep]
    | cons y t' =>
      have h1 : joinSep sep ((x :: y :: t') ++ [w]) = x ++ sep ++ joinSep sep ((y :: t') ++ [w]) := by
        simp only [List.cons_append]
        exact joinSep_cons₂ sep x y (t' ++ [w])
      rw [h1, ih w]
      simp [joinSep_cons₂, List.append_assoc]

theorem mem_joinSep (sep : List Char) :
    ∀ (ls : List (List Char)) (c : Char),
      c ∈ joinSep sep ls → (∃ l ∈ ls, c ∈ l) ∨ c ∈ sep := by
  intro ls
  induction ls with
  | nil => intro c hc; simp [joinSep] at hc
  | cons x t ih =>
    intro c hc
    cases t with
    | nil =>
      simp only [joinSep] at hc
      exact Or.inl ⟨x, by simp, hc⟩
    | cons y t' =>
      rw [joinSep_cons₂] at hc
      rcases List.mem_append.mp hc with h | h
      · rcases List.mem_append.mp h with h | h
        · exact Or.inl ⟨x, by simp, h⟩
        · exact Or.inr h
      · rcases ih c h with ⟨l, hl, hcl⟩ | h
        · exact Or.inl ⟨l, by simp [hl], hcl⟩
        · exact Or.inr h

theorem pySplit_joinSep_space (c : Char) (hc : isPySpace c = true) :
    ∀ ls : List (List Char), pySplit (joinSep [c] ls) = (ls.map pySplit).flatten := by
  intro ls
  induction ls with
  | nil => simp [joinSep, pySplit, pySplitAux]
  | cons x t ih =>
    cases t with
    | nil => simp [joinSep]
    | cons y t' =>
      have h1 : joinSep [c] (x :: y :: t') = x ++ c :: joinSep [c] (y :: t') := by
        rw [joinSep_cons₂]; simp
      rw [h1, pySplit_append_space c hc, ih]
      simp

theorem pySplit_joinSep_words (ws : List (List Char))
    (hws : ∀ w ∈ ws, w ≠ [] ∧ ∀ c ∈ w, isPySpace c = false) :
    pySplit (joinSep [' '] ws) = ws := by
  rw [pySplit_joinSep_space ' ' (by decide) ws]
  induction ws with
  | nil => simp
  | cons w t ih =>
    have hw := hws w (by simp)
    rw [List.map_cons, List.flatten_cons, pySplit_word w hw.1 hw.2]
    have := ih (fun x hx => hws x (by simp [hx]))
    simp [this]

/-! ## Lemmas about `splitOnChar` -/

theorem splitOnChar_ne_nil (c : Char) : ∀ l, splitOnChar c l ≠ [] := by
  intro l
  induction l with
  | nil => simp [splitOnChar]
  | cons d ds ih =>
    by_cases hd : d = c
    · simp [splitOnChar, hd]
    · simp only [splitOnChar, if_neg hd]
      cases h : splitOnChar c ds <;> simp

theorem splitOnChar_no_sep (c : Char) :
    ∀ l, c ∉ l → splitOnChar c l = [l] := by
  intro l
  induction l with
  | nil => intro _; rfl
  | cons d ds ih =>
    intro hmem
    have hd : ¬ d = c := fun h => hmem (by simp [h])
    have hds : c ∉ ds := fun h => hmem (by simp [h])
    simp [splitOnChar, hd, ih hds]

theorem splitOnChar_word_append (c : Char) (t : List Char) :
    ∀ l, c ∉ l → splitOnChar c (l ++ c :: t) = l :: splitOnChar c t := by
  intro l
  induction l with
  | nil => intro _; simp [splitOnChar]
  | cons d ds ih =>
    intro hmem
    have hd : ¬ d = c := fun h => hmem (by simp [h])
    have hds : c ∉ ds := fun h => hmem (by simp [h])
    simp [splitOnChar, hd, ih hds]

theorem splitOnChar_joinSep (c : Char) :
    ∀ ls, ls ≠ [] → (∀ l ∈ ls, c ∉ l) → splitOnChar c (joinSep [c] ls) = ls := by
  intro ls
  induction ls with
  | nil => intro h; exact absurd rfl h
  | cons x t ih =>
    intro _ hnomem
    cases t with
    | nil => exact splitOnChar_no_sep c x (hnomem x (by simp))
    | cons y t' =>
      have h1 : joinSep [c] (x :: y :: t') = x ++ c :: joinSep [c] (y :: t') := by
        rw [joinSep_cons₂]; simp
      rw [h1, splitOnChar_word_append c _ x (hnomem x (by simp))]
      rw [ih (by simp) (fun l hl => hnomem l (by simp [hl]))]

/-! ## Invariant of the greedy wrapping loop -/

/-- Invariant carried through `wrapFold`: `allW` is the full word list of the
input, `done` the words consumed so far.  Finished lines split back into their
word groups, are short or a single input word, and contain no whitespace
other than the single-space separators; the line under construction consists
of input words and its running length estimate dominates its joined length. -/
structure WrapInv (ml : Nat) (allW done : List (List Char)) (st : WrapState) : Prop where
  flat : ((st.lines.map pySplit).flatten ++ st.current_line) = done
  lines_ok : ∀ l ∈ st.lines,
    (l.length ≤ ml ∨ l ∈ allW) ∧ ∀ c ∈ l, isPySpace c = false ∨ c = ' '
  cur_words : ∀ w ∈ st.current_line, (w ≠ [] ∧ ∀ c ∈ w, isPySpace c = false) ∧ w ∈ allW
  cur_len : (joinSep [' '] st.current_line).length ≤ st.current_length
  cur_bound : st.current_length ≤ ml ∨ ∃ w, st.current_line = [w]

theorem pushedLine_ok (ml : Nat) (allW done : List (List Char)) (st : WrapState)
    (hinv : WrapInv ml allW done st) :
    pySplit (joinSep [' '] st.current_line) = st.current_line ∧
      ((joinSep [' '] st.current_line).length ≤ ml ∨ joinSep [' '] st.current_line ∈ allW) ∧
      ∀ c ∈ joinSep [' '] st.current_line, isPySpace c = false ∨ c = ' ' := by
  refine ⟨?_, ?_, ?_⟩
  · exact pySplit_joinSep_words st.current_line (fun w hw => (hinv.cur_words w hw).1)
  · rcases hinv.cur_bound with h | ⟨w, hw⟩
    · exact Or.inl (le_trans hinv.cur_len h)
    · right
      rw [hw]
      exact (hinv.cur_words w (by simp [hw])).2
  · intro c hc
    rcases mem_joinSep [' '] st.current_line c hc with ⟨l, hl, hcl⟩ | h
    · exact Or.inl ((hinv.cur_words l hl).1.2 c hcl)
    · simp at h
      exact Or.inr h

theorem wrapStep_inv (ml : Nat) (allW done : List (List Char)) (st : WrapState)
    (w : List Char) (hinv : WrapInv ml allW done st)
    (hw : (w ≠ [] ∧ ∀ c ∈ w, isPySpace c = false) ∧ w ∈ allW) :
    WrapInv ml allW (done ++ [w]) (wrapStep ml st w) := by
  unfold wrapStep
  by_cases hfit : st.current_length + w.length + 1 ≤ ml
  · simp only [if_pos hfit]
    refine ⟨?_, hinv.lines_ok, ?_, ?_, Or.inl hfit⟩
    · show (st.lines.map pySplit).flatten ++ (st.current_line ++ [w]) = done ++ [w]
      rw [← List.append_assoc, hinv.flat]
    · intro x hx
      rcases List.mem_append.mp hx with h | h
      · exact hinv.cur_words x h
      · simp at h
        exact h ▸ hw
    · show (joinSep [' '] (st.current_line ++ [w])).length ≤ st.current_length + w.length + 1
      rw [joinSep_append_single]
      by_cases hcl : st.current_line = []
      · simp [hcl]
        omega
      · simp only [if_neg hcl, List.length_append]
        have := hinv.cur_len
        simp only [List.length_append] at this ⊢
        simp
        omega
  · simp only [if_neg hfit]
    by_cases hcl : st.current_line = []
    · simp only [if_pos hcl]
      refine ⟨?_, hinv.lines_ok, ?_, ?_, Or.inr ⟨w, rfl⟩⟩
      · show (st.lines.map pySplit).flatten ++ [w] = done ++ [w]
        have := hinv.flat
        rw [hcl] at this
        simp at this
        rw [this]
      · intro x hx
        simp at hx
        exact hx ▸ hw
      · simp [joinSep]
    · simp only [if_neg hcl]
      have hpush := pushedLine_ok ml allW done st hinv
      refine ⟨?_, ?_, ?_, ?_, Or.inr ⟨w, rfl⟩⟩
      · show ((st.lines ++ [joinSep [' '] st.current_line]).map pySplit).flatten ++ [w] = done ++ [w]
        rw [List.map_append, List.flatten_append]
        simp only [List.map_cons, List.map_nil, List.flatten_cons, List.flatten_nil,
          List.append_nil, hpush.1]
        rw [hinv.flat]
      · intro l hl
        rcases List.mem_append.mp hl with h | h
        · exact hinv.lines_ok l h
        · simp at h
          exact h ▸ ⟨hpush.2.1, hpush.2.2⟩
      · intro x hx
        simp at hx
        exact hx ▸ hw
      · simp [joinSep]

theorem wrapFold_inv (ml : Nat) (allW : List (List Char)) :
    ∀ (ws : List (List Char)) (st : WrapState) (done : List (List Char)),
      WrapInv ml allW done st →
      (∀ w ∈ ws, (w ≠ [] ∧ ∀ c ∈ w, isPySpace c = false) ∧ w ∈ allW) →
      WrapInv ml allW (done ++ ws) (wrapFold ml st ws) := by
  intro ws
  induction ws with
  | nil =>
    intro st done h _
    simpa using h
  | cons w ws ih =>
    intro st done h hws
    have h1 := wrapStep_inv ml allW done st w h (hws w (by simp))
    have h2 := ih (wrapStep ml st w) (done ++ [w]) h1 (fun x hx => hws x (by simp [hx]))
    simpa using h2

theorem finishLines_spec (ml : Nat) (allW done : List (List Char)) (st : WrapState)
    (hinv : WrapInv ml allW done st) :
    ((finishLines st).map pySplit).flatten = done ∧
      ∀ l ∈ finishLines st,
        (l.length ≤ ml ∨ l ∈ allW) ∧ ∀ c ∈ l, isPySpace c = false ∨ c = ' ' := by
  unfold finishLines
  by_cases hcl : st.current_line = []
  · simp only [if_pos hcl]
    constructor
    · have := hinv.flat
      rw [hcl] at this
      simpa using this
    · exact hinv.lines_ok
  · simp only [if_neg hcl]
    have hpush := pushedLine_ok ml allW done st hinv
    constructor
    · rw [List.map_append, List.flatten_append]
      simp only [List.map_cons, List.map_nil, List.flatten_cons, List.flatten_nil,
        List.append_nil, hpush.1]
      exact hinv.flat
    · intro l hl
      rcases List.mem_append.mp hl with h | h
      · exact hinv.lines_ok l h
      · simp at h
        exact h ▸ ⟨hpush.2.1, hpush.2.2⟩

theorem wrapLines_spec (ml : Nat) (s : List Char) :
    ((wrapLines ml s).map pySplit).flatten = pySplit s ∧
      ∀ l ∈ wrapLines ml s,
        (l.length ≤ ml ∨ l ∈ pySplit s) ∧ ∀ c ∈ l, isPySpace c = false ∨ c = ' ' := by
  have h0 : WrapInv ml (pySplit s) [] ⟨[], [], 0⟩ := by
    refine ⟨by simp, by simp, by simp, by simp [joinSep], Or.inl (Nat.zero_le ml)⟩
  have hws : ∀ w ∈ pySplit s, (w ≠ [] ∧ ∀ c ∈ w, isPySpace c = false) ∧ w ∈ pySplit s :=
    fun w hw => ⟨pySplit_good s w hw, hw⟩
  have h1 := wrapFold_inv ml (pySplit s) (pySplit s) ⟨[], [], 0⟩ [] h0 hws
  exact finishLines_spec ml (pySplit s) (pySplit s) _ (by simpa using h1)

theorem wrapFold_current_ne (ml : Nat) :
    ∀ (ws : List (List Char)) (st : WrapState),
      ws ≠ [] → (wrapFold ml st ws).current_line ≠ [] := by
  intro ws
  induction ws with
  | nil => intro st h; exact absurd rfl h
  | cons w ws ih =>
    intro st _
    cases ws with
    | nil =>
      show (wrapStep ml st w).current_line ≠ []
      unfold wrapStep
      by_cases hfit : st.current_length + w.length + 1 ≤ ml <;> simp [hfit]
    | cons x t => exact ih (wrapStep ml st w) (by simp)

theorem wrapLines_ne_nil (ml : Nat) (s : List Char) (h : pySplit s ≠ []) :
    wrapLines ml s ≠ [] := by
  unfold wrapLines finishLines
  have hcur := wrapFold_current_ne ml (pySplit s) ⟨[], [], 0⟩ h
  simp [if_neg hcur]

theorem wrapLines_no_newline (ml : Nat) (s : List Char) :
    ∀ l ∈ wrapLines ml s, '\n' ∉ l := by
  intro l hl hmem
  rcases ((wrapLines_spec ml s).2 l hl).2 '\n' hmem with h | h
  · exact absurd h (by decide)
  · exact absurd h (by decide)

/-- Core round-trip fact: wrapping never loses, duplicates or reorders words. -/
theorem pySplit_wrap (ml : Nat) (s : List Char) :
    pySplit (wrap_text s ml) = pySplit s := by
  unfold wrap_text
  by_cases h : s = [] ∨ s.length ≤ ml
  · simp [h]
  · simp only [if_neg h]
    rw [pySplit_joinSep_space '\n' (by decide) (wrapLines ml s)]
    exact (wrapLines_spec ml s).1

/-! ## Lemmas about identifier extraction -/

theorem mem_setAdd (s : List (List Char)) (x y : List Char) :
    y ∈ setAdd s x ↔ y ∈ s ∨ y = x := by
  unfold setAdd
  by_cases h : x ∈ s
  · simp only [if_pos h]
    exact ⟨Or.inl, fun hy => hy.elim id (fun e => e ▸ h)⟩
  · simp [if_neg h]

theorem isAadhaar_cons_nondigit (c : Char) (rest : List Char) (hc : c.isDigit = false) :
    isAadhaar (c :: rest) = false := by
  simp [isAadhaar, pyIsdigit, hc]

theorem strCoerce_eq_pyStr (v : Json) (s : List Char) (hs : isAadhaar s = true) :
    strCoerce v = some s ↔ pyStr v = s := by
  cases v with
  | int n => simp [strCoerce, pyStr, pyRepr]
  | str t => simp [strCoerce, pyStr]
  | bool b => cases b <;> simp [strCoerce, pyStr, pyRepr]
  | null =>
    simp only [strCoerce, pyStr]
    constructor
    · intro h; cases h
    · intro h
      rw [show pyRepr Json.null = strL "None" from by rw [pyRepr]] at h
      rw [← h] at hs
      exact absurd hs (by decide)
  | arr xs =>
    simp only [strCoerce, pyStr]
    constructor
    · intro h; cases h
    · intro h
      rw [show pyRepr (Json.arr xs) = '[' :: (pyReprElems xs ++ [']']) from by rw [pyRepr]] at h
      rw [← h] at hs
      rw [isAadhaar_cons_nondigit '[' _ (by decide)] at hs
      cases hs
  | obj kvs =>
    simp only [strCoerce, pyStr]
    constructor
    · intro h; cases h
    · intro h
      rw [show pyRepr (Json.obj kvs) = Char.ofNat 123 :: (pyReprFields kvs ++ [Char.ofNat 125])
        from by rw [pyRepr]] at h
      rw [← h] at hs
      rw [isAadhaar_cons_nondigit (Char.ofNat 123) _ (by decide)] at hs
      cases hs

theorem mem_extractStep (found : List (List Char)) (e : Json) (s : List Char) :
    s ∈ extractStep found e ↔
      s ∈ found ∨ (isAadhaar s = true ∧ ∃ fields v, e = .obj fields ∧
        dictGet fields (strL "id") = some v ∧ pyStr v = s) := by
  cases e with
  | obj fields =>
    simp only [extractStep, Json.obj.injEq]
    cases hv : dictGet fields (strL "id") with
    | none =>
      dsimp only
      constructor
      · exact fun h => Or.inl h
      · rintro (h | ⟨_, fields', v, rfl, hd, _⟩)
        · exact h
        · rw [hv] at hd; cases hd
    | some v =>
      dsimp only
      cases hcv : strCoerce v with
      | none =>
        dsimp only
        constructor
        · exact fun h => Or.inl h
        · rintro (h | ⟨ha, fields', w, rfl, hd, hw⟩)
          · exact h
          · rw [hv] at hd
            cases hd
            rw [← strCoerce_eq_pyStr _ _ ha, hcv] at hw
            cases hw
      | some t =>
        dsimp only
        by_cases hat : isAadhaar t = true
        · rw [if_pos hat, mem_setAdd]
          constructor
          · rintro (h | rfl)
            · exact Or.inl h
            · refine Or.inr ⟨hat, fields, v, rfl, hv, ?_⟩
              rw [← strCoerce_eq_pyStr _ _ hat]
              exact hcv
          · rintro (h | ⟨ha, fields', w, rfl, hd, hw⟩)
            · exact Or.inl h
            · rw [hv] at hd
              cases hd
              rw [← strCoerce_eq_pyStr _ _ ha, hcv] at hw
              cases hw
              exact Or.inr rfl
        · rw [if_neg hat]
          constructor
          · exact fun h => Or.inl h
          · rintro (h | ⟨ha, fields', w, rfl, hd, hw⟩)
            · exact h
            · rw [hv] at hd
              cases hd
              rw [← strCoerce_eq_pyStr _ _ ha, hcv] at hw
              cases hw
              exact absurd ha hat
  | null =>
    constructor
    · exact fun h => Or.inl h
    · rintro (h | ⟨_, fields, v, he, _, _⟩)
      · exact h
      · cases he
  | bool b =>
    constructor
    · exact fun h => Or.inl h
    · rintro (h | ⟨_, fields, v, he, _, _⟩)
      · exact h
      · cases he
  | int n =>
    constructor
    · exact fun h => Or.inl h
    · rintro (h | ⟨_, fields, v, he, _, _⟩)
      · exact h
      · cases he
  | str t =>
    constructor
    · exact fun h => Or.inl h
    · rintro (h | ⟨_, fields, v, he, _, _⟩)
      · exact h
      · cases he
  | arr xs =>
    constructor
    · exact fun h => Or.inl h
    · rintro (h | ⟨_, fields, v, he, _, _⟩)
      · exact h
      · cases he

theorem mem_extractLoop :
    ∀ (entries : List Json) (acc : List (List Char)) (s : List Char),
      s ∈ extractLoop entries acc ↔
        s ∈ acc ∨ (isAadhaar s = true ∧ ∃ e ∈ entries, ∃ fields v, e = .obj fields ∧
          dictGet fields (strL "id") = some v ∧ pyStr v = s) := by
  intro entries
  induction entries with
  | nil =>
    intro acc s
    constructor
    · exact fun h => Or.inl h
    · rintro (h | ⟨_, e, he, _⟩)
      · exact h
      · exact absurd he (List.not_mem_nil e)
  | cons e rest ih =>
    intro acc s
    rw [show extractLoop (e :: rest) acc = extractLoop rest (extractStep acc e) from rfl,
      ih, mem_extractStep]
    simp only [List.mem_cons]
    constructor
    · rintro ((h | ⟨ha, fields, v, he, hd, hs⟩) | ⟨ha, e', he', fields, v, he, hd, hs⟩)
      · exact Or.inl h
      · exact Or.inr ⟨ha, e, Or.inl rfl, fields, v, he, hd, hs⟩
      · exact Or.inr ⟨ha, e', Or.inr he', fields, v, he, hd, hs⟩
    · rintro (h | ⟨ha, e', he', fields, v, he, hd, hs⟩)
      · exact Or.inl (Or.inl h)
      · rcases he' with rfl | he'
        · exact Or.inl (Or.inr ⟨ha, fields, v, he, hd, hs⟩)
        · exact Or.inr ⟨ha, e', he', fields, v, he, hd, hs⟩

/-! ## Claim theorems -/

/-- Claim C6: for every string longer than 50 characters that contains at
least one space, every line of the Text Formatter's output has length at most
50, except lines consisting of a single input word that is itself longer than
50 characters (such a word is kept intact on its own line). -/
theorem claim6_wrap_line_lengths (s : List Char) (h1 : 50 < s.length) (h2 : ' ' ∈ s) :
    ∀ l ∈ splitOnChar '\n' (wrap_text s 50),
      l.length ≤ 50 ∨ (50 < l.length ∧ l ∈ pySplit s) := by
  have hlong : ¬ (s = [] ∨ s.length ≤ 50) := by
    rintro (rfl | hle)
    · simp at h1
    · omega
  rw [wrap_text, if_neg hlong]
  by_cases hw : wrapLines 50 s = []
  · rw [hw]
    intro l hl
    simp only [joinSep, splitOnChar, List.mem_singleton] at hl
    simp [hl]
  · rw [splitOnChar_joinSep '\n' (wrapLines 50 s) hw (wrapLines_no_newline 50 s)]
    intro l hl
    rcases ((wrapLines_spec 50 s).2 l hl).1 with h | h
    · exact Or.inl h
    · by_cases hlen : l.length ≤ 50
      · exact Or.inl hlen
      · exact Or.inr ⟨by omega, h⟩

def wit6str : List Char :=
  strL "the quick brown fox jumps over the lazy dog and then some more words here"

theorem claim6_wrap_line_lengths_witness :
    50 < wit6str.length ∧ ' ' ∈ wit6str ∧
      ((strL "the quick brown fox jumps over the lazy dog and").length ≤ 50 ∨
        (50 < (strL "the quick brown fox jumps over the lazy dog and").length ∧
          strL "the quick brown fox jumps over the lazy dog and" ∈ pySplit wit6str)) :=
  ⟨by decide, by decide,
    claim6_wrap_line_lengths wit6str (by decide) (by decide)
      (strL "the quick brown fox jumps over the lazy dog and") (by decide)⟩

/-- Claim C7: splitting the Text Formatter's output on whitespace yields
exactly the same word sequence as splitting the input on whitespace — no word
is lost, duplicated or reordered. -/
theorem claim7_wrap_word_roundtrip (s : List Char) :
    pySplit (wrap_text s 50) = pySplit s :=
  pySplit_wrap 50 s

/-- Claim C10: the Text Formatter's output depends only on the
whitespace-split word sequence of its input (so runs of spaces, tabs and
newlines inside a long value collapse to single separators), and wrapping is
idempotent. -/
theorem claim10_word_extensional :
    (∀ s1 s2 : List Char, 50 < s1.length → 50 < s2.length →
      pySplit s1 = pySplit s2 → wrap_text s1 50 = wrap_text s2 50) ∧
    (∀ s : List Char, wrap_text (wrap_text s 50) 50 = wrap_text s 50) := by
  constructor
  · intro s1 s2 h1 h2 heq
    have hn1 : ¬ (s1 = [] ∨ s1.length ≤ 50) := by
      rintro (rfl | h)
      · simp at h1
      · omega
    have hn2 : ¬ (s2 = [] ∨ s2.length ≤ 50) := by
      rintro (rfl | h)
      · simp at h2
      · omega
    rw [wrap_text, if_neg hn1, wrap_text, if_neg hn2]
    unfold wrapLines
    rw [heq]
  · intro s
    by_cases hshort : wrap_text s 50 = [] ∨ (wrap_text s 50).length ≤ 50
    · rw [wrap_text, if_pos hshort]
    · have hs : ¬ (s = [] ∨ s.length ≤ 50) := by
        rintro (rfl | hle)
        · exact hshort (Or.inl (by rw [wrap_text]; simp))
        · exact hshort (by rw [wrap_text, if_pos (Or.inr hle)]; exact Or.inr hle)
      rw [wrap_text, if_neg hshort]
      unfold wrapLines
      rw [pySplit_wrap 50 s]
      rw [show wrap_text s 50 = joinSep ['\n'] (wrapLines 50 s) from by
        rw [wrap_text, if_neg hs]]
      rfl

def wit10a : List Char :=
  strL "alpha beta gamma delta epsilon zeta eta theta iota kappa"
def wit10b : List Char :=
  strL "alpha   beta gamma	delta epsilon zeta eta theta iota  kappa"

theorem claim10_word_extensional_witness :
    50 < wit10a.length ∧ 50 < wit10b.length ∧ pySplit wit10a = pySplit wit10b ∧
      wrap_text wit10a 50 = wrap_text wit10b 50 ∧
      wrap_text (wrap_text wit10a 50) 50 = wrap_text wit10a 50 :=
  ⟨by decide, by decide, by decide,
    claim10_word_extensional.1 wit10a wit10b (by decide) (by decide) (by decide),
    claim10_word_extensional.2 wit10a⟩

/-- Claim C1: a string is in the identifier set produced by scanning the
primary records exactly when it is the string coercion of some record's `id`
field and has length 12 with only decimal digits; non-qualifying values are
ignored without error (the extraction loop is total). -/
theorem claim1_identifier_extraction (entries : List Json) (s : List Char) :
    s ∈ extractLoop entries [] ↔
      isAadhaar s = true ∧ ∃ e ∈ entries, ∃ fields v, e = Json.obj fields ∧
        dictGet fields (strL "id") = some v ∧ pyStr v = s := by
  rw [mem_extractLoop]
  constructor
  · rintro (h | h)
    · exact absurd h (List.not_mem_nil s)
    · exact h
  · exact Or.inr

theorem claim1_identifier_extraction_witness :
    strL "123456789012" ∈
      extractLoop [Json.obj [(strL "id", Json.str (strL "123456789012"))]] [] :=
  (claim1_identifier_extraction _ _).mpr
    ⟨by decide, Json.obj [(strL "id", Json.str (strL "123456789012"))], by simp,
      [(strL "id", Json.str (strL "123456789012"))],
      Json.str (strL "123456789012"), rfl, rfl, rfl⟩

/-- Claim C4 (amended): the Upstream Client returns the parsed body or an
error message drawn from a fixed vocabulary determined solely by the failure
cause — timeout, connection-failed, not-found (404), invalid-input (422), the
caller-supplied generic message for any other upstream status and for any
other `RequestException` (which, with requests ≥ 2.27, includes a body that
fails to parse as JSON), and unexpected for anything else.  The result never
depends on the URL itself, and every error message lies in the fixed list. -/
theorem claim4_error_vocabulary (net : List Char → CallOutcome) (url msg : List Char) :
    (net url = .timeout → safe_api_call net url msg = .error (errObjMsg msgTimeout)) ∧
    (net url = .connectionFailed →
      safe_api_call net url msg = .error (errObjMsg msgConnection)) ∧
    (net url = .httpStatus 404 → safe_api_call net url msg = .error (errObjMsg msgNotFound)) ∧
    (net url = .httpStatus 422 →
      safe_api_call net url msg = .error (errObjMsg msgInvalidInput)) ∧
    (∀ code : Nat, code ≠ 404 → code ≠ 422 → net url = .httpStatus code →
      safe_api_call net url msg = .error (errObjMsg msg)) ∧
    (net url = .invalidJsonBody → safe_api_call net url msg = .error (errObjMsg msg)) ∧
    (net url = .otherRequestError → safe_api_call net url msg = .error (errObjMsg msg)) ∧
    (net url = .otherError → safe_api_call net url msg = .error (errObjMsg msgUnexpected)) ∧
    (∀ e, safe_api_call net url msg = .error e →
      ∃ m, e = errObjMsg m ∧ (m = msgTimeout ∨ m = msgConnection ∨ m = msgNotFound ∨
        m = msgInvalidInput ∨ m = msg ∨ m = msgUnexpected)) ∧
    (∀ (net2 : List Char → CallOutcome) (url2 : List Char), net url = net2 url2 →
      safe_api_call net url msg = safe_api_call net2 url2 msg) := by
  refine ⟨?_, ?_, ?_, ?_, ?_, ?_, ?_, ?_, ?_, ?_⟩
  · intro h; simp [safe_api_call, h]
  · intro h; simp [safe_api_call, h]
  · intro h; simp [safe_api_call, h]
  · intro h; simp [safe_api_call, h]
  · intro code h404 h422 h; simp [safe_api_call, h, h404, h422]
  · intro h; simp [safe_api_call, h]
  · intro h; simp [safe_api_call, h]
  · intro h; simp [safe_api_call, h]
  · intro e he
    unfold safe_api_call at he
    cases hnet : net url with
    | success body => rw [hnet] at he; cases he
    | timeout =>
      rw [hnet] at he
      cases he
      exact ⟨msgTimeout, rfl, Or.inl rfl⟩
    | connectionFailed =>
      rw [hnet] at he
      cases he
      exact ⟨msgConnection, rfl, Or.inr (Or.inl rfl)⟩
    | httpStatus code =>
      rw [hnet] at he
      dsimp only at he
      by_cases h404 : code = 404
      · rw [if_pos h404] at he
        cases he
        exact ⟨msgNotFound, rfl, Or.inr (Or.inr (Or.inl rfl))⟩
      · rw [if_neg h404] at he
        by_cases h422 : code = 422
        · rw [if_pos h422] at he
          cases he
          exact ⟨msgInvalidInput, rfl, Or.inr (Or.inr (Or.inr (Or.inl rfl)))⟩
        · rw [if_neg h422] at he
          cases he
          exact ⟨msg, rfl, Or.inr (Or.inr (Or.inr (Or.inr (Or.inl rfl))))⟩
    | invalidJsonBody =>
      rw [hnet] at he
      cases he
      exact ⟨msg, rfl, Or.inr (Or.inr (Or.inr (Or.inr (Or.inl rfl))))⟩
    | otherRequestError =>
      rw [hnet] at he
      cases he
      exact ⟨msg, rfl, Or.inr (Or.inr (Or.inr (Or.inr (Or.inl rfl))))⟩
    | otherError =>
      rw [hnet] at he
      cases he
      exact ⟨msgUnexpected, rfl, Or.inr (Or.inr (Or.inr (Or.inr (Or.inr rfl))))⟩
  · intro net2 url2 h
    unfold safe_api_call
    rw [← h]

theorem claim4_error_vocabulary_witness :
    ((fun _ : List Char => CallOutcome.timeout) (strL "u") = CallOutcome.timeout) ∧
      safe_api_call (fun _ => CallOutcome.timeout) (strL "u") msgMobileFail =
        .error (errObjMsg msgTimeout) :=
  ⟨rfl, (claim4_error_vocabulary (fun _ => CallOutcome.timeout) (strL "u") msgMobileFail).1 rfl⟩

/-- Claim C4 counterexample: under requests ≥ 2.27 (current for over four
years), `response.json()` raises `requests.exceptions.JSONDecodeError`, a
subclass of `RequestException`, so the `except RequestException` clause on
line 65 catches it before the bare `except Exception` clause on line 67.  A
body that fails to parse as JSON therefore yields the caller-supplied generic
message, not the unexpected-error message the claim requires. -/
theorem claim4_counterexample :
    safe_api_call (fun _ => CallOutcome.invalidJsonBody) (strL "u") msgMobileFail =
      .error (errObjMsg msgMobileFail) ∧ msgMobileFail ≠ msgUnexpected :=
  ⟨rfl, by decide⟩

/-- Claim C9: a missing or empty `number` parameter yields HTTP 400 with the
required-message body; a nonempty value that is not all decimal digits or is
shorter than 10 characters yields HTTP 400 with the invalid-format body.  The
result is the same for every network oracle `net`, i.e. no upstream call can
influence it. -/
theorem claim9_validation (net : List Char → CallOutcome) :
    get_details net none = .ok ⟨400, .obj (errObjMsg msgRequired)⟩ ∧
    get_details net (some []) = .ok ⟨400, .obj (errObjMsg msgRequired)⟩ ∧
    ∀ m, m ≠ [] → (pyIsdigit m = false ∨ m.length < 10) →
      get_details net (some m) = .ok ⟨400, .obj (errObjMsg msgInvalidFormat)⟩ := by
  refine ⟨rfl, rfl, ?_⟩
  intro m hne hbad
  simp only [get_details]
  rw [if_neg hne, if_pos hbad]

theorem claim9_validation_witness :
    (strL "12345" ≠ [] ∧ (pyIsdigit (strL "12345") = false ∨ (strL "12345").length < 10)) ∧
      get_details (fun _ => CallOutcome.timeout) (some (strL "12345")) =
        .ok ⟨400, .obj (errObjMsg msgInvalidFormat)⟩ :=
  ⟨⟨by decide, by decide⟩,
    (claim9_validation (fun _ => CallOutcome.timeout)).2.2 (strL "12345")
      (by decide) (by decide)⟩

/-- Claim C2: whenever validation passes, the handler produces a response and
the primary lookup yielded zero qualifying identifiers, the `AADHAAR_INFO` and
`FAMILY_INFO` sections of the body are the status-marker objects (and neither
is a sequence). -/
theorem claim2_no_identifier_markers (net : List Char → CallOutcome) (m : List Char)
    (r : HttpResponse) (hdig : pyIsdigit m = true) (hlen : 10 ≤ m.length)
    (hok : get_details net (some m) = .ok r) (hempty : foundIds net m = []) :
    (∃ mobileSec, r.body = .obj [(kMobileInfo, mobileSec),
      (kAadhaarInfo, statusNoAadhaar), (kFamilyInfo, statusNoFamily)]) ∧
      (∀ l, statusNoAadhaar ≠ Json.arr l) ∧ (∀ l, statusNoFamily ≠ Json.arr l) := by
  have hne : m ≠ [] := fun h => by rw [h] at hdig; exact absurd hdig (by decide)
  have hvalid : ¬ (pyIsdigit m = false ∨ m.length < 10) := by
    rintro (h | h)
    · rw [hdig] at h; cases h
    · omega
  simp only [get_details] at hok
  rw [if_neg hne, if_neg hvalid] at hok
  cases hmp : mobilePart net m with
  | error u =>
    rw [hmp] at hok
    cases hok
  | ok p =>
    obtain ⟨sec, entries⟩ := p
    rw [hmp] at hok
    dsimp only at hok
    have hfound : extractLoop entries [] = [] := by
      have hh : foundIds net m = extractLoop entries [] := by
        unfold foundIds
        rw [hmp]
      rw [← hh, hempty]
    rw [hfound] at hok
    rw [show aadhaarSection net [] = .ok statusNoAadhaar from by
      unfold aadhaarSection; simp] at hok
    dsimp only at hok
    rw [show familySection net [] = statusNoFamily from by
      unfold familySection; simp] at hok
    cases hok
    exact ⟨⟨sec, rfl⟩, fun l h => Json.noConfusion h, fun l h => Json.noConfusion h⟩

theorem claim2_no_identifier_markers_witness :
    pyIsdigit (strL "1234567890") = true ∧
    foundIds (fun _ => CallOutcome.timeout) (strL "1234567890") = [] ∧
      ((∃ mobileSec, (HttpResponse.mk 200 (Json.obj [(kMobileInfo, .obj (errObjMsg msgTimeout)),
          (kAadhaarInfo, statusNoAadhaar), (kFamilyInfo, statusNoFamily)])).body =
          .obj [(kMobileInfo, mobileSec), (kAadhaarInfo, statusNoAadhaar),
            (kFamilyInfo, statusNoFamily)]) ∧
        (∀ l, statusNoAadhaar ≠ Json.arr l) ∧ (∀ l, statusNoFamily ≠ Json.arr l)) :=
  ⟨by decide, rfl,
    claim2_no_identifier_markers (fun _ => CallOutcome.timeout) (strL "1234567890")
      ⟨200, Json.obj [(kMobileInfo, .obj (errObjMsg msgTimeout)),
        (kAadhaarInfo, statusNoAadhaar), (kFamilyInfo, statusNoFamily)]⟩
      (by decide) (by decide) rfl rfl⟩

/-- Claim C3: with discovered identifiers `[A, B]` (`A ≠ B`), when the
secondary call for `A` fails and the one for `B` succeeds (and its body
formats without raising), the `AADHAAR_INFO` section is exactly the
two-element sequence of the error entry tagged `A` followed by the details
entry tagged `B`: the failure for `A` neither aborts nor alters `B`. -/
theorem claim3_partial_failure (net : List Char → CallOutcome) (A B : List Char)
    (eA : List (List Char × Json)) (dB fB : Json) (_hAB : A ≠ B)
    (hA : safe_api_call net (AADHAR_INFO_API_BASE ++ A) msgAadhaarFail = .error eA)
    (hB : safe_api_call net (AADHAR_INFO_API_BASE ++ B) msgAadhaarFail = .ok dB)
    (hfmt : detailFormat dB = .ok fB) :
    aadhaarSection net [A, B] =
      .ok (.arr [.obj (mergeObjs [(kAadhaarNumber, .str A)] eA),
        .obj [(kAadhaarNumber, .str B), (strL "details", fB)]]) ∧
      [Json.obj (mergeObjs [(kAadhaarNumber, .str A)] eA),
        Json.obj [(kAadhaarNumber, .str B), (strL "details", fB)]].length = 2 := by
  have h1 : aadhaarEntry net A = .ok (.obj (mergeObjs [(kAadhaarNumber, .str A)] eA)) := by
    unfold aadhaarEntry
    rw [hA]
  have h2 : aadhaarEntry net B = .ok (.obj [(kAadhaarNumber, .str B), (strL "details", fB)]) := by
    unfold aadhaarEntry
    rw [hB]
    dsimp only
    rw [hfmt]
  refine ⟨?_, rfl⟩
  unfold aadhaarSection
  rw [if_neg (by simp)]
  simp [listMapExc, h1, h2]

def claim3net : List Char → CallOutcome := fun url =>
  if url = AADHAR_INFO_API_BASE ++ strL "111111111111" then .timeout
  else .success (.obj [])

theorem claim3_partial_failure_witness :
    (strL "111111111111" ≠ strL "222222222222") ∧
    safe_api_call claim3net (AADHAR_INFO_API_BASE ++ strL "111111111111") msgAadhaarFail =
      .error (errObjMsg msgTimeout) ∧
    safe_api_call claim3net (AADHAR_INFO_API_BASE ++ strL "222222222222") msgAadhaarFail =
      .ok (.obj []) ∧
    detailFormat (.obj []) = .ok (.obj []) ∧
    aadhaarSection claim3net [strL "111111111111", strL "222222222222"] =
      .ok (.arr [.obj (mergeObjs [(kAadhaarNumber, .str (strL "111111111111"))]
          (errObjMsg msgTimeout)),
        .obj [(kAadhaarNumber, .str (strL "222222222222")), (strL "details", .obj [])]]) :=
  ⟨by decide, rfl, rfl, rfl,
    (claim3_partial_failure claim3net (strL "111111111111") (strL "222222222222")
      (errObjMsg msgTimeout) (.obj []) (.obj []) (by decide) rfl rfl rfl).1⟩

/-- Claim C5 (amended): the record sequence is determined by shape, but only a
NONEMPTY sequence is used — a mapping whose `data` field holds a nonempty
sequence is formatted and used, a response that is itself a nonempty sequence
is used directly, and everything else (including a `data` field holding the
empty sequence or an empty bare sequence, which are falsy in the
`if data_list and isinstance(data_list, list)` test) yields the warning
marker. -/
theorem claim5_shape_dispatch :
    (∀ fields entries fe, dictGet fields (strL "data") = some (.arr entries) →
      entries ≠ [] → listMapExc format_entry entries = .ok fe →
      primaryBranch (.obj fields) = .ok (.arr fe, entries)) ∧
    (∀ entries fe, entries ≠ [] → listMapExc format_entry entries = .ok fe →
      primaryBranch (.arr entries) = .ok (.arr fe, entries)) ∧
    (∀ fields, dictGet fields (strL "data") = none →
      primaryBranch (.obj fields) = .ok (warningObj, [])) ∧
    (∀ fields v, dictGet fields (strL "data") = some v →
      (∀ entries, v = .arr entries → entries = []) →
      primaryBranch (.obj fields) = .ok (warningObj, [])) ∧
    primaryBranch (.arr []) = .ok (warningObj, []) ∧
    (∀ md, dataListOf md = none → primaryBranch md = .ok (warningObj, [])) := by
  refine ⟨?_, ?_, ?_, ?_, rfl, ?_⟩
  · intro fields entries fe hd hne hfmt
    unfold primaryBranch
    rw [show dataListOf (.obj fields) = dictGet fields (strL "data") from rfl, hd]
    cases entries with
    | nil => exact absurd rfl hne
    | cons e es =>
      dsimp only
      rw [hfmt]
  · intro entries fe hne hfmt
    cases entries with
    | nil => exact absurd rfl hne
    | cons e es =>
      unfold primaryBranch
      rw [show dataListOf (.arr (e :: es)) = some (.arr (e :: es)) from rfl]
      dsimp only
      rw [hfmt]
  · intro fields hd
    unfold primaryBranch
    rw [show dataListOf (.obj fields) = dictGet fields (strL "data") from rfl, hd]
  · intro fields v hd hv
    unfold primaryBranch
    rw [show dataListOf (.obj fields) = dictGet fields (strL "data") from rfl, hd]
    cases v with
    | arr entries =>
      cases entries with
      | nil => rfl
      | cons e es => exact absurd (hv (e :: es) rfl) (by simp)
    | null => rfl
    | bool b => rfl
    | int n => rfl
    | str t => rfl
    | obj kvs => rfl
  · intro md hd
    unfold primaryBranch
    rw [hd]

theorem claim5_shape_dispatch_witness :
    dictGet [(strL "data", Json.arr [Json.obj []])] (strL "data") =
      some (.arr [Json.obj []]) ∧ ([Json.obj []] : List Json) ≠ [] ∧
    listMapExc format_entry [Json.obj []] = .ok [Json.obj []] ∧
    primaryBranch (.obj [(strL "data", Json.arr [Json.obj []])]) =
      .ok (.arr [Json.obj []], [Json.obj []]) :=
  ⟨rfl, by simp, rfl,
    claim5_shape_dispatch.1 [(strL "data", Json.arr [Json.obj []])] [Json.obj []]
      [Json.obj []] rfl (by simp) rfl⟩

/-- Claim C5 counterexample: a mapping whose `data` field holds the EMPTY
sequence produces the warning marker, not the (formatted) empty sequence,
because an empty list is falsy in `if data_list and isinstance(data_list,
list)` (line 98). -/
theorem claim5_counterexample :
    primaryBranch (Json.obj [(strL "data", Json.arr [])]) = .ok (warningObj, []) ∧
      warningObj ≠ Json.arr [] :=
  ⟨rfl, fun h => Json.noConfusion h⟩

/-- Claim C8 (amended): once validation passes, any response the handler
produces has status 200, and every upstream-call ERROR is recovered locally
and embedded in the 200 body (shown here for the primary call: its normalized
error becomes the `MOBILE_INFO` section and the request still returns 200).
What breaks the original claim is not an upstream error but an upstream
SUCCESS whose record sequence contains a non-mapping record, which raises an
uncaught exception (see the counterexample). -/
theorem claim8_recovered_errors (net : List Char → CallOutcome) (m : List Char)
    (hdig : pyIsdigit m = true) (hlen : 10 ≤ m.length) :
    (∀ r, get_details net (some m) = .ok r → r.status = 200) ∧
    (∀ e, safe_api_call net (MOBILE_INFO_API_BASE ++ m) msgMobileFail = .error e →
      get_details net (some m) = .ok ⟨200, .obj [(kMobileInfo, .obj e),
        (kAadhaarInfo, statusNoAadhaar), (kFamilyInfo, statusNoFamily)]⟩) := by
  have hne : m ≠ [] := fun h => by rw [h] at hdig; exact absurd hdig (by decide)
  have hvalid : ¬ (pyIsdigit m = false ∨ m.length < 10) := by
    rintro (h | h)
    · rw [hdig] at h; cases h
    · omega
  constructor
  · intro r hr
    simp only [get_details] at hr
    rw [if_neg hne, if_neg hvalid] at hr
    cases hmp : mobilePart net m with
    | error u =>
      rw [hmp] at hr
      cases hr
    | ok p =>
      obtain ⟨sec, entries⟩ := p
      rw [hmp] at hr
      dsimp only at hr
      cases has : aadhaarSection net (extractLoop entries []) with
      | error u =>
        rw [has] at hr
        cases hr
      | ok aSec =>
        rw [has] at hr
        dsimp only at hr
        cases hr
        rfl
  · intro e he
    simp only [get_details]
    rw [if_neg hne, if_neg hvalid]
    rw [show mobilePart net m = .ok (Json.obj e, []) from by
      unfold mobilePart; rw [he]]
    dsimp only
    rw [show aadhaarSection net (extractLoop [] []) = .ok statusNoAadhaar from by
      unfold aadhaarSection; simp [extractLoop]]
    dsimp only
    rw [show familySection net (extractLoop [] []) = statusNoFamily from by
      unfold familySection; simp [extractLoop]]

theorem claim8_recovered_errors_witness :
    pyIsdigit (strL "1234567890") = true ∧ 10 ≤ (strL "1234567890").length ∧
      get_details (fun _ => CallOutcome.timeout) (some (strL "1234567890")) =
        .ok ⟨200, .obj [(kMobileInfo, .obj (errObjMsg msgTimeout)),
          (kAadhaarInfo, statusNoAadhaar), (kFamilyInfo, statusNoFamily)]⟩ :=
  ⟨by decide, by decide,
    (claim8_recovered_errors (fun _ => CallOutcome.timeout) (strL "1234567890")
      (by decide) (by decide)).2 (errObjMsg msgTimeout) rfl⟩

def claim8net : List Char → CallOutcome := fun url =>
  if url = MOBILE_INFO_API_BASE ++ strL "1234567890" then .success (.arr [Json.int 1])
  else .timeout

/-- Claim C8 counterexample: with a valid number, a successful primary
response whose `data` sequence contains the non-mapping record `1` makes
`format_entry(1)` raise `AttributeError` on line 100; nothing catches it, so
the handler does not return a 200 JSON response (Flask emits a framework 500).
This refutes "returns HTTP 200 ... for every combination of upstream
outcomes". -/
theorem claim8_counterexample :
    get_details claim8net (some (strL "1234567890")) = .error () := rfl
